import Mathlib

/-!
Verification of the version-extraction routine in `polytracker/_version.py`.

The Python module scans a C header for lines of the form
`#define POLYTRACKER_VERSION_<NAME> <VALUE>` using the regex
`\s*#define\s+POLYTRACKER_VERSION_([A-Za-z_0-9]+)\s+([^\s]+)\s*$` (applied
with `re.match` to each line), records recognized names in a dict (last
occurrence wins), validates MAJOR/MINOR/REVISION as base-10 integers via
Python `int`, normalizes an optional SUFFIX, and renders
`"{major}.{minor}.{revision}{suffix}"`.

The embedding below works over `List Char`.  `sys.exit(1)` is modelled by
the `ExtractResult.exit 1` constructor, and writes to `stderr` by an
accumulated `List String` of the exact messages the Python code formats.
The file system (used only by `get_polytracker_header`) is modelled as a
function `String → Option String` from paths to file contents.
-/

namespace PolyVersion

/-- Python `\s` (whitespace class) restricted to the code points Python's
`re` module treats as whitespace for `str` patterns: ASCII 9–13, 28–32,
and the Unicode whitespace code points 133, 160, 0x1680, 0x2000–0x200a,
0x2028, 0x2029, 0x202f, 0x205f, 0x3000.  `str.strip` and `int` use the
same class. -/
def pySpace (c : Char) : Bool :=
  let n := c.toNat
  (9 ≤ n && n ≤ 13) || (28 ≤ n && n ≤ 32) || n = 133 || n = 160 ||
    n = 0x1680 || (0x2000 ≤ n && n ≤ 0x200a) || n = 0x2028 || n = 0x2029 ||
    n = 0x202f || n = 0x205f || n = 0x3000

/-- The regex character class `[A-Za-z_0-9]` (codes 65–90, 97–122, 48–57, 95). -/
def wordChar (c : Char) : Bool :=
  let n := c.toNat
  (65 ≤ n && n ≤ 90) || (97 ≤ n && n ≤ 122) || (48 ≤ n && n ≤ 57) || n = 95

/-- ASCII decimal digit `0`–`9` (codes 48–57). -/
def isDigitCh (c : Char) : Bool :=
  48 ≤ c.toNat && c.toNat ≤ 57

/-- The code points of the decimal digit ZERO of every Unicode
general-category-Nd digit range (Unicode 14.0, as shipped with CPython
3.11's `unicodedata`).  Every Nd character is `zero + d` for exactly one
entry `zero` here and one digit value `d ≤ 9`: the ranges are disjoint and
each spans the ten consecutive code points zero–nine.  CPython's `int()`
accepts exactly these characters as digits (it maps each Nd character to
the corresponding ASCII digit before parsing). -/
def ndZeroPoints : List Nat :=
  [0x30, 0x660, 0x6f0, 0x7c0, 0x966, 0x9e6, 0xa66, 0xae6,
   0xb66, 0xbe6, 0xc66, 0xce6, 0xd66, 0xde6, 0xe50, 0xed0,
   0xf20, 0x1040, 0x1090, 0x17e0, 0x1810, 0x1946, 0x19d0, 0x1a80,
   0x1a90, 0x1b50, 0x1bb0, 0x1c40, 0x1c50, 0xa620, 0xa8d0, 0xa900,
   0xa9d0, 0xa9f0, 0xaa50, 0xabf0, 0xff10, 0x104a0, 0x10d30, 0x11066,
   0x110f0, 0x11136, 0x111d0, 0x112f0, 0x11450, 0x114d0, 0x11650, 0x116c0,
   0x11730, 0x118e0, 0x11950, 0x11c50, 0x11d50, 0x11da0, 0x16a60, 0x16ac0,
   0x16b50, 0x1d7ce, 0x1d7d8, 0x1d7e2, 0x1d7ec, 0x1d7f6, 0x1e140, 0x1e2f0,
   0x1e950, 0x1fbf0]

/-- The decimal value of a Unicode decimal digit (general category Nd),
`none` for every other character: the digit test both Python `int()` and
the `str`-pattern class `\d` use. -/
def decDigitVal (c : Char) : Option Nat :=
  (ndZeroPoints.find? (fun b => b ≤ c.toNat && c.toNat ≤ b + 9)).map
    (fun b => c.toNat - b)

/-- Whether a character is a Unicode decimal digit (category Nd): the
character class `\d` of Python `re` on `str`. -/
def ndDigit (c : Char) : Bool :=
  (decDigitVal c).isSome

/-- The characters of the literal token `#define` in the scan regex. -/
def defineChars : List Char := ['#', 'd', 'e', 'f', 'i', 'n', 'e']

/-- The characters of the literal `POLYTRACKER_VERSION_` in the scan regex. -/
def versionChars : List Char :=
  ['P', 'O', 'L', 'Y', 'T', 'R', 'A', 'C', 'K', 'E', 'R', '_',
   'V', 'E', 'R', 'S', 'I', 'O', 'N', '_']

/-- Match a literal character sequence at the front of the input, returning
the remainder on success (the regex's literal-token matching). -/
def dropLit : List Char → List Char → Option (List Char)
  | [], cs => some cs
  | _ :: _, [] => none
  | l :: ls, c :: cs => if c = l then dropLit ls cs else none

/-- The regex piece `\s+`: require at least one whitespace character, then
consume the maximal whitespace run (the following regex atom in every use
site starts with a non-whitespace character, so the greedy run is exact). -/
def chompWs1 (cs : List Char) : Option (List Char) :=
  match cs with
  | c :: _ => if pySpace c then some (cs.dropWhile pySpace) else none
  | [] => none

/-- `re.match(r"\s*#define\s+POLYTRACKER_VERSION_([A-Za-z_0-9]+)\s+([^\s]+)\s*$", line)`
from `extract_version`, returning the two captured groups (name, raw value).

The regex is anchored at the start (`re.match`) and effectively at the end
(`\s*$`).  Greedy matching with backtracking reduces to this deterministic
scan: leading `\s*` must consume the maximal whitespace run because the
next atom `#` is not whitespace; likewise for both `\s+` pieces (followed
by `P` resp. by `[^\s]`); the capture `([A-Za-z_0-9]+)` must be the maximal
word-character run because a shorter capture leaves a word character where
`\s+` requires whitespace; and `([^\s]+)` must be the maximal
non-whitespace run because a shorter capture leaves a non-whitespace
character where `\s*$` requires whitespace-to-end. -/
def matchLine (cs : List Char) : Option (String × String) :=
  (dropLit defineChars (cs.dropWhile pySpace)).bind (fun s2 =>
    (chompWs1 s2).bind (fun s3 =>
      (dropLit versionChars s3).bind (fun s4 =>
        let n := s4.takeWhile wordChar
        if n = [] then none
        else
          (chompWs1 (s4.dropWhile wordChar)).bind (fun s6 =>
            let v := s6.takeWhile (fun c => !pySpace c)
            if v = [] then none
            else if (s6.dropWhile (fun c => !pySpace c)).dropWhile pySpace = [] then
              some (String.mk n, String.mk v)
            else none))))

/-- The membership test `m[1] in ("MAJOR", "MINOR", "REVISION", "SUFFIX")`. -/
def recognizedName (n : String) : Bool :=
  n = "MAJOR" || n = "MINOR" || n = "REVISION" || n = "SUFFIX"

/-- Canonical decimal digits of a natural number, least significant last;
`digitCharOf d` is the ASCII digit for `d ≤ 9` (inputs are always `< 10`). -/
def digitCharOf (d : Nat) : Char :=
  if d = 0 then '0' else if d = 1 then '1' else if d = 2 then '2'
  else if d = 3 then '3' else if d = 4 then '4' else if d = 5 then '5'
  else if d = 6 then '6' else if d = 7 then '7' else if d = 8 then '8'
  else '9'

/-- Digit-extraction loop for `natRepr`, structurally recursive on a fuel
argument (the fuel never runs out: a number has at most as many decimal
digits as its value, and the entry point passes `n` as fuel). -/
def natReprGo : Nat → Nat → List Char → List Char
  | 0, n, acc => digitCharOf n :: acc
  | fuel + 1, n, acc =>
    if n < 10 then digitCharOf n :: acc
    else natReprGo fuel (n / 10) (digitCharOf (n % 10) :: acc)

/-- Canonical decimal representation of a `Nat`, as Python `str` prints it. -/
def natRepr (n : Nat) : List Char :=
  natReprGo n n []

/-- Python `str` applied to an `int`: canonical decimal, `-` sign for
negative values. -/
def pyStrChars (i : Int) : List Char :=
  if i < 0 then '-' :: natRepr i.natAbs else natRepr i.toNat

/-- Python `str(i)` as a Lean `String`. -/
def pyStr (i : Int) : String := String.mk (pyStrChars i)

/-- Python `str.strip()`: remove leading and trailing whitespace. -/
def pyStrip (cs : List Char) : List Char :=
  ((cs.dropWhile pySpace).reverse.dropWhile pySpace).reverse

/-- Digit run of a Python `int` literal after the first digit: Unicode
decimal digits (`decDigitVal`) with single underscores allowed between
digits (`1_0` is 10; `1__0`, `1_` are rejected), accumulating the value. -/
def pyDigits : List Char → Nat → Option Nat
  | [], acc => some acc
  | c :: cs, acc =>
    match decDigitVal c with
    | some d => pyDigits cs (acc * 10 + d)
    | none =>
      if c = '_' then
        match cs with
        | c2 :: cs2 =>
          match decDigitVal c2 with
          | some d2 => pyDigits cs2 (acc * 10 + d2)
          | none => none
        | [] => none
      else none

/-- Unsigned part of Python `int(s)`: at least one digit, then `pyDigits`. -/
def pyIntCore (cs : List Char) : Option Nat :=
  match cs with
  | c :: rest =>
    match decDigitVal c with
    | some d => pyDigits rest d
    | none => none
  | [] => none

/-- Python `int(s)` for `str` input (base 10): strip whitespace, optional
single ASCII `+`/`-` sign, then one or more Unicode decimal digits
(category Nd — CPython first maps every Nd character to its ASCII digit
and every Unicode whitespace character to a space, then parses) with
single underscores allowed between digits; `none` models the
`ValueError`.  Interior whitespace, a non-digit character, a lone sign or
a misplaced underscore all fail, exactly as in CPython. -/
def pyInt (s : String) : Option Int :=
  match pyStrip s.toList with
  | '+' :: rest => (pyIntCore rest).map (fun n => (n : Int))
  | '-' :: rest => (pyIntCore rest).map (fun n => -(n : Int))
  | cs => (pyIntCore cs).map (fun n => (n : Int))

/-- Python `s.startswith('"')` on a char list. -/
def startsQuote (cs : List Char) : Bool :=
  match cs with
  | c :: _ => c = '"'
  | [] => false

/-- Python `s.endswith('"')` on a char list. -/
def endsQuote (cs : List Char) : Bool :=
  match cs.getLast? with
  | some c => c = '"'
  | none => false

/-- The SUFFIX normalization of `extract_version` (lines 66–72):
`suffix.strip()`, then if it starts and ends with `"` take `suffix[1:-1]`
(drop the first and last character), and map the empty result to `None`. -/
def processSuffix (v : String) : Option String :=
  let s := pyStrip v.toList
  let s2 := if startsQuote s && endsQuote s then (s.drop 1).dropLast else s
  if s2 = [] then none else some (String.mk s2)

/-- Modelled from the spec (§4.3 SUFFIX handling), for comparison with the
code's `processSuffix`: strip surrounding whitespace; if the stripped value
begins and ends with a double-quote character, remove exactly one leading
and one trailing double-quote; if the result is the empty string the suffix
is none, otherwise it is the resulting string. -/
def suffixSpecModel (v : String) : Option String :=
  let s := pyStrip v.toList
  let s2 :=
    if s.head? = some '"' && s.getLast? = some '"' then s.tail.dropLast else s
  if s2 = [] then none else some (String.mk s2)

/-- Diagnostic written for an unrecognized `POLYTRACKER_VERSION_*` name
(`lineNum` is the 1-based line number). -/
def warnMsg (path : String) (lineNum : Nat) (name : String) : String :=
  "Warning: Ignoring unexpected #define for \"POLYTRACKER_VERSION_" ++ name ++
    "\" on line " ++ String.mk (natRepr lineNum) ++ " of " ++ path ++ "\n"

/-- Diagnostic written when a required macro is absent. -/
def missingMsg (path : String) (part : String) : String :=
  "Error: #define POLYTRACKER_VERSION_" ++ part ++ " not found in " ++ path ++ "\n\n"

/-- Diagnostic written when a required macro's value is not an integer. -/
def notIntMsg (path : String) (part : String) : String :=
  "Error: POLYTRACKER_VERSION_" ++ part ++ " in " ++ path ++ " is not an integer!\n\n"

/-- The empty `version_parts` dict, as a lookup function. -/
def tbl0 : String → Option String := fun _ => none

/-- The scan loop of `extract_version`: iterate over the lines (0-based
index `i`), match each against the regex, warn on unrecognized names,
record recognized names in the dict (later assignments overwrite).
Returns the final dict and the accumulated stderr messages. -/
def scanGo (path : String) :
    Nat → (String → Option String) → List String → List (List Char) →
      ((String → Option String) × List String)
  | _, tbl, errs, [] => (tbl, errs)
  | i, tbl, errs, l :: ls =>
    match matchLine l with
    | none => scanGo path (i + 1) tbl errs ls
    | some (n, v) =>
      if recognizedName n then
        scanGo path (i + 1) (fun k => if k = n then some v else tbl k) errs ls
      else
        scanGo path (i + 1) tbl (errs ++ [warnMsg path (i + 1) n]) ls

/-- Scan a full list of lines starting from an empty dict. -/
def scanLines (path : String) (lines : List (List Char)) :
    (String → Option String) × List String :=
  scanGo path 0 tbl0 [] lines

/-- Split file content at `'\n'`, as iterating a Python text file does.
(A trailing newline yields one extra empty line, which matches nothing and
so does not change the scan's observable behavior.) -/
def splitLines : List Char → List (List Char)
  | [] => [[]]
  | c :: cs =>
    if c = '\n' then [] :: splitLines cs
    else
      match splitLines cs with
      | [] => [[c]]
      | l :: ls => (c :: l) :: ls

/-- One iteration of the validation loop `for required_part in (...)`:
look the macro up in the dict and parse it with `int`, producing the exact
stderr message of the failing `sys.exit(1)` path on failure. -/
def validatePart (path : String) (tbl : String → Option String)
    (part : String) : Except String Int :=
  match tbl part with
  | none => Except.error (missingMsg path part)
  | some v =>
    match pyInt v with
    | none => Except.error (notIntMsg path part)
    | some n => Except.ok n

/-- Result of `extract_version`: either `sys.exit(code)` or the returned
tuple `(major, minor, revision, suffix)`. -/
inductive ExtractResult where
  | exit (code : Nat)
  | ok (major minor revision : Int) (suffix : Option String)
deriving DecidableEq, Repr

/-- Validation and suffix handling of `extract_version` (lines 51–80),
given the scanned dict: check MAJOR, MINOR, REVISION in that fixed order
(exiting with status 1 and one error message at the first failure), then
normalize SUFFIX.  `warns` is the stderr output accumulated by the scan. -/
def extractFromTable (path : String) (tbl : String → Option String)
    (warns : List String) : List String × ExtractResult :=
  match validatePart path tbl "MAJOR" with
  | Except.error m => (warns ++ [m], ExtractResult.exit 1)
  | Except.ok ma =>
    match validatePart path tbl "MINOR" with
    | Except.error m => (warns ++ [m], ExtractResult.exit 1)
    | Except.ok mi =>
      match validatePart path tbl "REVISION" with
      | Except.error m => (warns ++ [m], ExtractResult.exit 1)
      | Except.ok re =>
        let suf :=
          match tbl "SUFFIX" with
          | none => none
          | some v => processSuffix v
        (warns, ExtractResult.ok ma mi re suf)

/-- `extract_version` on an explicit list of lines. -/
def extractFromLines (path : String) (lines : List (List Char)) :
    List String × ExtractResult :=
  match scanLines path lines with
  | (tbl, warns) => extractFromTable path tbl warns

/-- `extract_version` (lines 27–80): scan the header content, then
validate; the first component is everything written to stderr. -/
def extract_version (path content : String) : List String × ExtractResult :=
  extractFromLines path (splitLines content.toList)

/-- The characters of the rendered version string:
`".".join(map(str, primary))` followed by the suffix (no separator). -/
def renderChars (ma mi re : Int) (suf : Option String) : List Char :=
  pyStrChars ma ++ '.' :: pyStrChars mi ++ '.' :: pyStrChars re ++
    (match suf with
     | none => []
     | some s => s.toList)

/-- The rendered version string for an extracted record. -/
def renderVersion (ma mi re : Int) (suf : Option String) : String :=
  String.mk (renderChars ma mi re suf)

/-- The version string produced by `get_version_string` from an
`extract_version` result; `none` when the process exited instead. -/
def renderResult : ExtractResult → Option String
  | ExtractResult.exit _ => none
  | ExtractResult.ok ma mi re suf => some (renderVersion ma mi re suf)

/-- `get_version_string` (lines 82–94): stderr output plus the version
string (`none` when the process terminated in `extract_version`). -/
def get_version_string (path content : String) : List String × Option String :=
  ((extract_version path content).1,
    renderResult (extract_version path content).2)

/-- The fixed header location of `get_polytracker_header`:
`<package_dir>/include/polytracker/polytracker.h`. -/
def headerPath (packageDir : String) : String :=
  packageDir ++ "/include/polytracker/polytracker.h"

/-- Diagnostic written by `get_polytracker_header` when the header file is
absent. -/
def headerNotFoundMsg (hp : String) : String :=
  "Error loading polytracker.h!\nIt was expected to be here:\n" ++ hp ++ "\n\n"

/-- `get_polytracker_header` (lines 13–24) over an abstract file system
`fs` mapping paths to contents: if the header path does not exist, write
the diagnostic and exit (modelled as `none`); otherwise return the path. -/
def get_polytracker_header (fs : String → Option String) (packageDir : String) :
    List String × Option String :=
  match fs (headerPath packageDir) with
  | none => ([headerNotFoundMsg (headerPath packageDir)], none)
  | some _ => ([], some (headerPath packageDir))

/-- The whole pipeline over the abstract file system: locate the header,
then extract from its content. -/
def extractVersionFS (fs : String → Option String) (packageDir : String) :
    List String × ExtractResult :=
  match get_polytracker_header fs packageDir with
  | (errs, none) => (errs, ExtractResult.exit 1)
  | (errs, some hp) =>
    match fs hp with
    | none => (errs, ExtractResult.exit 1)
    | some content =>
      match extract_version hp content with
      | (e2, r) => (errs ++ e2, r)

/-- Checker for the spec's produced-value pattern `\d+\.\d+\.\d+(.*)?`
under `re.match` semantics: one-or-more digits (`\d` on `str` patterns is
the Unicode Nd class, `ndDigit`), dot, digits, dot, digits at the start of
the string (the trailing `(.*)?` matches anything, including nothing, so
it imposes no constraint under `re.match`). -/
def numThen (cs : List Char) : Option (List Char) :=
  match cs with
  | c :: rest => if ndDigit c then some (rest.dropWhile ndDigit) else none
  | [] => none

/-- Whether a string matches `\d+\.\d+\.\d+(.*)?` at its start. -/
def matchesVersionPat (s : String) : Bool :=
  match numThen s.toList with
  | none => false
  | some r1 =>
    match r1 with
    | '.' :: r1' =>
      match numThen r1' with
      | none => false
      | some r2 =>
        match r2 with
        | '.' :: r2' => (numThen r2').isSome
        | _ => false
    | _ => false

/-- Values matched against the scan regex for a given macro name, in line
order: the raw values of every line whose captured name is `n`. -/
def matchValuesOf (n : String) (lines : List (List Char)) : List String :=
  lines.filterMap (fun l =>
    match matchLine l with
    | some (m, v) => if m = n then some v else none
    | none => none)

/-- The stderr messages the scan produces, computed directly: one warning
per matching line whose captured name is unrecognized, nothing else. -/
def warnGo (path : String) : Nat → List (List Char) → List String
  | _, [] => []
  | i, l :: ls =>
    match matchLine l with
    | some (n, _) =>
      if recognizedName n then warnGo path (i + 1) ls
      else warnMsg path (i + 1) n :: warnGo path (i + 1) ls
    | none => warnGo path (i + 1) ls

/-- The dict produced by scanning a header's content. -/
def scanTbl (path content : String) : String → Option String :=
  (scanLines path (splitLines content.toList)).1

/-- The stderr warnings produced by scanning a header's content. -/
def scanWarns (path content : String) : List String :=
  (scanLines path (splitLines content.toList)).2

/-! ## Helper lemmas -/

theorem dropWhileAppendAll {α} (p : α → Bool) (xs ys : List α)
    (h : ∀ c ∈ xs, p c = true) :
    (xs ++ ys).dropWhile p = ys.dropWhile p := by
  induction xs with
  | nil => rfl
  | cons x xs ih =>
    have hx : p x = true := h x (by simp)
    simp only [List.cons_append, List.dropWhile_cons, hx, if_true]
    exact ih (fun c hc => h c (by simp [hc]))

theorem dropWhileConsNeg {α} (p : α → Bool) (c : α) (cs : List α)
    (h : p c = false) :
    (c :: cs).dropWhile p = c :: cs := by
  simp [List.dropWhile_cons, h]

theorem dropWhileAllNil {α} (p : α → Bool) (xs : List α)
    (h : ∀ c ∈ xs, p c = true) :
    xs.dropWhile p = [] := by
  have h2 := dropWhileAppendAll p xs [] h
  simpa using h2

/-- The first element of the list, if any, fails the predicate. -/
def headNot {α} (p : α → Bool) : List α → Prop
  | [] => True
  | c :: _ => p c = false

theorem takeDropRun {α} (p : α → Bool) (xs ys : List α)
    (hx : ∀ c ∈ xs, p c = true) (hy : headNot p ys) :
    (xs ++ ys).takeWhile p = xs ∧ (xs ++ ys).dropWhile p = ys := by
  induction xs with
  | nil =>
    cases ys with
    | nil => exact ⟨rfl, rfl⟩
    | cons y ys =>
      have hpy : p y = false := hy
      exact ⟨by simp [List.takeWhile_cons, hpy], by simp [List.dropWhile_cons, hpy]⟩
  | cons x xs ih =>
    have hx1 : p x = true := hx x (by simp)
    obtain ⟨h1, h2⟩ := ih (fun c hc => hx c (by simp [hc]))
    exact ⟨by simp [List.takeWhile_cons, hx1, h1], by simp [List.dropWhile_cons, hx1, h2]⟩

theorem dropLitSelf (lit cs : List Char) : dropLit lit (lit ++ cs) = some cs := by
  induction lit with
  | nil => rfl
  | cons l ls ih => simp [dropLit, ih]

theorem chompWs1Build (w : List Char) (c : Char) (rest : List Char)
    (hwn : w ≠ []) (hw : ∀ x ∈ w, pySpace x = true) (hc : pySpace c = false) :
    chompWs1 (w ++ c :: rest) = some (c :: rest) := by
  cases w with
  | nil => exact absurd rfl hwn
  | cons a w2 =>
    have ha : pySpace a = true := hw a (by simp)
    have hd : ((a :: w2) ++ c :: rest).dropWhile pySpace = c :: rest := by
      rw [dropWhileAppendAll pySpace (a :: w2) (c :: rest) hw]
      exact dropWhileConsNeg pySpace c rest hc
    show (if pySpace a then some (((a :: w2) ++ c :: rest).dropWhile pySpace) else none)
      = some (c :: rest)
    rw [if_pos ha, hd]

theorem spaceNotWord (c : Char) (h : pySpace c = true) : wordChar c = false := by
  simp only [pySpace, Bool.or_eq_true, Bool.and_eq_true, decide_eq_true_eq] at h
  simp only [wordChar, Bool.or_eq_true, Bool.and_eq_true, decide_eq_true_eq,
    Bool.eq_false_iff, ne_eq, not_or, not_and]
  omega

theorem matchLineBuild (w1 w2 w3 w4 n v : List Char)
    (hw1 : ∀ c ∈ w1, pySpace c = true)
    (hw2n : w2 ≠ []) (hw2 : ∀ c ∈ w2, pySpace c = true)
    (hw3n : w3 ≠ []) (hw3 : ∀ c ∈ w3, pySpace c = true)
    (hw4 : ∀ c ∈ w4, pySpace c = true)
    (hnn : n ≠ []) (hn : ∀ c ∈ n, wordChar c = true)
    (hvn : v ≠ []) (hv : ∀ c ∈ v, pySpace c = false) :
    matchLine (w1 ++ (defineChars ++ (w2 ++ (versionChars ++ (n ++ (w3 ++ (v ++ w4))))))) =
      some (String.mk n, String.mk v) := by
  obtain ⟨cv, v2, rfl⟩ := List.exists_cons_of_ne_nil hvn
  have hcv : pySpace cv = false := hv cv (by simp)
  -- leading `\s*` then the literal `#define`
  have e1 : (w1 ++ (defineChars ++ (w2 ++ (versionChars ++ (n ++ (w3 ++ (cv :: v2 ++ w4))))))).dropWhile pySpace
      = defineChars ++ (w2 ++ (versionChars ++ (n ++ (w3 ++ (cv :: v2 ++ w4))))) := by
    rw [dropWhileAppendAll pySpace w1 _ hw1]
    simp only [defineChars, List.cons_append]
    exact dropWhileConsNeg pySpace '#' _ (by decide)
  -- `\s+` then the literal `POLYTRACKER_VERSION_`
  have e2 : chompWs1 (w2 ++ (versionChars ++ (n ++ (w3 ++ (cv :: v2 ++ w4)))))
      = some (versionChars ++ (n ++ (w3 ++ (cv :: v2 ++ w4)))) := by
    have h9 : versionChars ++ (n ++ (w3 ++ (cv :: v2 ++ w4)))
        = 'P' :: (['O', 'L', 'Y', 'T', 'R', 'A', 'C', 'K', 'E', 'R', '_',
            'V', 'E', 'R', 'S', 'I', 'O', 'N', '_'] ++ (n ++ (w3 ++ (cv :: v2 ++ w4)))) := by
      simp [versionChars]
    rw [h9]
    exact chompWs1Build w2 'P' _ hw2n hw2 (by decide)
  -- the capture `([A-Za-z_0-9]+)`
  have e3 := takeDropRun wordChar n (w3 ++ (cv :: v2 ++ w4)) hn
    (by
      obtain ⟨a, w32, rfl⟩ := List.exists_cons_of_ne_nil hw3n
      exact spaceNotWord a (hw3 a (by simp)))
  -- `\s+` before the value capture
  have e4 : chompWs1 (w3 ++ (cv :: v2 ++ w4)) = some (cv :: (v2 ++ w4)) := by
    have h9 : w3 ++ (cv :: v2 ++ w4) = w3 ++ cv :: (v2 ++ w4) := by simp
    rw [h9]
    exact chompWs1Build w3 cv (v2 ++ w4) hw3n hw3 hcv
  -- the capture `([^\s]+)` and the trailing `\s*$`
  have e5 := takeDropRun (fun c => !pySpace c) (cv :: v2) w4
    (fun c hc => by simp [hv c hc])
    (by
      cases w4 with
      | nil => exact trivial
      | cons b w42 => simp [headNot, hw4 b (by simp)])
  have e6 : (w4 : List Char).dropWhile pySpace = [] := dropWhileAllNil pySpace w4 hw4
  simp only [List.cons_append] at e1 e2 e3 e4 e5 ⊢
  simp only [matchLine, e1, dropLitSelf, Option.some_bind, e2, e3.1, e3.2, e4,
    e5.1, e5.2, e6, if_neg hnn]
  simp

/-- Last element of a list, with a default for the empty list (the value a
sequence of dict overwrites leaves behind). -/
def lastOfOpt : List String → Option String → Option String
  | [], d => d
  | v :: vs, _ => lastOfOpt vs (some v)

theorem lastOfOptEq (vs : List String) :
    ∀ d, lastOfOpt vs d =
      match vs.getLast? with
      | some x => some x
      | none => d := by
  induction vs with
  | nil => intro d; rfl
  | cons v vs ih =>
    intro d
    have h1 : lastOfOpt (v :: vs) d = lastOfOpt vs (some v) := rfl
    rw [h1, ih (some v), List.getLast?_cons]
    cases vs.getLast? with
    | none => rfl
    | some x => rfl

theorem scanGoAppend (path : String) (xs ys : List (List Char)) :
    ∀ i tbl errs, scanGo path i tbl errs (xs ++ ys) =
      scanGo path (i + xs.length) (scanGo path i tbl errs xs).1
        (scanGo path i tbl errs xs).2 ys := by
  induction xs with
  | nil => intro i tbl errs; simp [scanGo]
  | cons x xs ih =>
    intro i tbl errs
    have hlen : i + (x :: xs).length = (i + 1) + xs.length := by
      simp [List.length_cons]; omega
    rw [hlen]
    cases hm : matchLine x with
    | none => simp only [List.cons_append, scanGo, hm]; exact ih (i + 1) tbl errs
    | some nv =>
      obtain ⟨n, v⟩ := nv
      by_cases hr : recognizedName n = true
      · simp only [List.cons_append, scanGo, hm]
        rw [if_pos hr, if_pos hr]
        exact ih (i + 1) _ errs
      · simp only [List.cons_append, scanGo, hm]
        rw [if_neg hr, if_neg hr]
        exact ih (i + 1) tbl _

theorem scanGoFstCongr (path : String) (ls : List (List Char)) :
    ∀ i j tbl errs errs2,
      (scanGo path i tbl errs ls).1 = (scanGo path j tbl errs2 ls).1 := by
  induction ls with
  | nil => intro i j tbl errs errs2; rfl
  | cons l ls ih =>
    intro i j tbl errs errs2
    cases hm : matchLine l with
    | none => simp only [scanGo, hm]; exact ih (i + 1) (j + 1) tbl errs errs2
    | some nv =>
      obtain ⟨n, v⟩ := nv
      by_cases hr : recognizedName n = true
      · simp only [scanGo, hm]
        rw [if_pos hr, if_pos hr]
        exact ih (i + 1) (j + 1) _ errs errs2
      · simp only [scanGo, hm]
        rw [if_neg hr, if_neg hr]
        exact ih (i + 1) (j + 1) tbl _ _

theorem scanGoSnd (path : String) (ls : List (List Char)) :
    ∀ i tbl errs, (scanGo path i tbl errs ls).2 = errs ++ warnGo path i ls := by
  induction ls with
  | nil => intro i tbl errs; simp [scanGo, warnGo]
  | cons l ls ih =>
    intro i tbl errs
    cases hm : matchLine l with
    | none => simp only [scanGo, warnGo, hm]; exact ih (i + 1) tbl errs
    | some nv =>
      obtain ⟨n, v⟩ := nv
      by_cases hr : recognizedName n = true
      · simp only [scanGo, warnGo, hm]
        rw [if_pos hr, if_pos hr]
        exact ih (i + 1) _ errs
      · simp only [scanGo, warnGo, hm]
        rw [if_neg hr, if_neg hr]
        rw [ih (i + 1) tbl (errs ++ [warnMsg path (i + 1) n])]
        simp

theorem scanGoLookup (path : String) (n : String) (hrec : recognizedName n = true)
    (ls : List (List Char)) :
    ∀ i tbl errs,
      (scanGo path i tbl errs ls).1 n = lastOfOpt (matchValuesOf n ls) (tbl n) := by
  induction ls with
  | nil => intro i tbl errs; rfl
  | cons l ls ih =>
    intro i tbl errs
    cases hm : matchLine l with
    | none =>
      simp only [scanGo, hm, matchValuesOf, List.filterMap_cons]
      exact ih (i + 1) tbl errs
    | some nv =>
      obtain ⟨m, v⟩ := nv
      by_cases hmn : m = n
      · subst hmn
        simp only [scanGo, hm]
        rw [if_pos hrec]
        rw [ih (i + 1) (fun k => if k = m then some v else tbl k) errs]
        have h2 : matchValuesOf m (l :: ls) = v :: matchValuesOf m ls := by
          simp [matchValuesOf, List.filterMap_cons, hm]
        rw [h2]
        have h3 : (fun k => if k = m then some v else tbl k) m = some v :=
          if_pos rfl
        exact congrArg (lastOfOpt (matchValuesOf m ls)) h3
      · have h2 : matchValuesOf n (l :: ls) = matchValuesOf n ls := by
          simp [matchValuesOf, List.filterMap_cons, hm, hmn]
        by_cases hr : recognizedName m = true
        · simp only [scanGo, hm]
          rw [if_pos hr]
          rw [ih (i + 1) (fun k => if k = m then some v else tbl k) errs]
          rw [h2]
          have h3 : (fun k => if k = m then some v else tbl k) n = tbl n :=
            if_neg (fun h : n = m => hmn h.symm)
          exact congrArg (lastOfOpt (matchValuesOf n ls)) h3
        · simp only [scanGo, hm]
          rw [if_neg hr, h2]
          exact ih (i + 1) tbl _

theorem extractFromTableSndCongr (path : String) (tbl : String → Option String)
    (w w2 : List String) :
    (extractFromTable path tbl w).2 = (extractFromTable path tbl w2).2 := by
  simp only [extractFromTable]
  cases validatePart path tbl "MAJOR" with
  | error m => rfl
  | ok ma =>
    cases validatePart path tbl "MINOR" with
    | error m => rfl
    | ok mi =>
      cases validatePart path tbl "REVISION" with
      | error m => rfl
      | ok re => rfl

theorem digitCharOfIsDigit (d : Nat) : isDigitCh (digitCharOf d) = true := by
  unfold digitCharOf
  repeat' split
  all_goals decide

theorem natReprGoNeNil (fuel : Nat) :
    ∀ n acc, natReprGo fuel n acc ≠ [] := by
  induction fuel with
  | zero => intro n acc; simp [natReprGo]
  | succ fuel ih =>
    intro n acc
    by_cases h : n < 10
    · simp [natReprGo, h]
    · simp only [natReprGo, if_neg h]
      exact ih (n / 10) _

theorem natReprGoDigits (fuel : Nat) :
    ∀ n acc, (∀ c ∈ acc, isDigitCh c = true) →
      ∀ c ∈ natReprGo fuel n acc, isDigitCh c = true := by
  induction fuel with
  | zero =>
    intro n acc hacc c hc
    simp only [natReprGo, List.mem_cons] at hc
    rcases hc with rfl | hc
    · exact digitCharOfIsDigit n
    · exact hacc c hc
  | succ fuel ih =>
    intro n acc hacc c hc
    by_cases h : n < 10
    · simp only [natReprGo, if_pos h, List.mem_cons] at hc
      rcases hc with rfl | hc
      · exact digitCharOfIsDigit n
      · exact hacc c hc
    · simp only [natReprGo, if_neg h] at hc
      refine ih (n / 10) _ ?_ c hc
      intro c2 hc2
      simp only [List.mem_cons] at hc2
      rcases hc2 with rfl | hc2
      · exact digitCharOfIsDigit (n % 10)
      · exact hacc c2 hc2

theorem natReprNeNil (n : Nat) : natRepr n ≠ [] := natReprGoNeNil n n []

theorem natReprDigits (n : Nat) : ∀ c ∈ natRepr n, isDigitCh c = true :=
  natReprGoDigits n n [] (by simp)

theorem pyStrCharsNonneg (i : Int) (h : 0 ≤ i) :
    pyStrChars i = natRepr i.toNat := by
  unfold pyStrChars
  rw [if_neg (by omega)]

theorem asciiDigitVal (c : Char) (h : isDigitCh c = true) :
    decDigitVal c = some (c.toNat - 48) := by
  have h9 : ((fun b => b ≤ c.toNat && c.toNat ≤ b + 9) (0x30 : Nat)) = true := by
    simp only [isDigitCh, Bool.and_eq_true, decide_eq_true_eq] at h
    simp only [Bool.and_eq_true, decide_eq_true_eq]
    omega
  have hf : ndZeroPoints.find? (fun b => b ≤ c.toNat && c.toNat ≤ b + 9)
      = some 0x30 := by
    rw [show ndZeroPoints = 0x30 :: ndZeroPoints.tail from rfl]
    exact List.find?_cons_of_pos _ h9
  unfold decDigitVal
  rw [hf]
  rfl

/-- An ASCII digit is in particular a Unicode decimal digit. -/
theorem asciiNdDigit (c : Char) (h : isDigitCh c = true) : ndDigit c = true := by
  unfold ndDigit
  rw [asciiDigitVal c h]
  rfl

theorem numThenDigits (ds : List Char) (c : Char) (rest : List Char)
    (hne : ds ≠ []) (hd : ∀ x ∈ ds, isDigitCh x = true) (hc : ndDigit c = false) :
    numThen (ds ++ c :: rest) = some (c :: rest) := by
  obtain ⟨d, ds2, rfl⟩ := List.exists_cons_of_ne_nil hne
  have h1 : ndDigit d = true := asciiNdDigit d (hd d (by simp))
  have h2 : ((ds2 ++ c :: rest) : List Char).dropWhile ndDigit = c :: rest := by
    rw [dropWhileAppendAll ndDigit ds2 _
      (fun x hx => asciiNdDigit x (hd x (by simp [hx])))]
    exact dropWhileConsNeg ndDigit c rest hc
  simp [numThen, h1, h2]

theorem numThenSome (ds : List Char) (rest : List Char)
    (hne : ds ≠ []) (hd : ∀ x ∈ ds, isDigitCh x = true) :
    (numThen (ds ++ rest)).isSome = true := by
  obtain ⟨d, ds2, rfl⟩ := List.exists_cons_of_ne_nil hne
  have h1 : ndDigit d = true := asciiNdDigit d (hd d (by simp))
  simp [numThen, h1]

/-- A rendered version whose three numeric components are non-empty
all-digit strings matches the spec's pattern, whatever the tail. -/
theorem patCheckBuild (d1 d2 d3 tail : List Char)
    (h1n : d1 ≠ []) (h1 : ∀ x ∈ d1, isDigitCh x = true)
    (h2n : d2 ≠ []) (h2 : ∀ x ∈ d2, isDigitCh x = true)
    (h3n : d3 ≠ []) (h3 : ∀ x ∈ d3, isDigitCh x = true) :
    matchesVersionPat (String.mk (d1 ++ '.' :: (d2 ++ '.' :: (d3 ++ tail)))) = true := by
  have e1 : numThen (d1 ++ '.' :: (d2 ++ '.' :: (d3 ++ tail)))
      = some ('.' :: (d2 ++ '.' :: (d3 ++ tail))) :=
    numThenDigits d1 '.' _ h1n h1 (by decide)
  have e2 : numThen (d2 ++ '.' :: (d3 ++ tail)) = some ('.' :: (d3 ++ tail)) :=
    numThenDigits d2 '.' _ h2n h2 (by decide)
  have e3 : (numThen (d3 ++ tail)).isSome = true := numThenSome d3 tail h3n h3
  have ht : (String.mk (d1 ++ '.' :: (d2 ++ '.' :: (d3 ++ tail)))).toList
      = d1 ++ '.' :: (d2 ++ '.' :: (d3 ++ tail)) := rfl
  simp only [matchesVersionPat, ht, e1, e2, e3]

/-- String append agrees with list append of the underlying characters. -/
theorem strMkAppend (xs ys : List Char) :
    String.mk xs ++ String.mk ys = String.mk (xs ++ ys) := rfl

theorem renderNoneEq (ma mi re : Int) :
    renderVersion ma mi re none = pyStr ma ++ "." ++ pyStr mi ++ "." ++ pyStr re := by
  show String.mk (renderChars ma mi re none)
    = pyStr ma ++ "." ++ pyStr mi ++ "." ++ pyStr re
  have hdot : ("." : String) = String.mk ['.'] := rfl
  simp only [pyStr, hdot, strMkAppend, renderChars]
  simp

theorem renderSomeEq (ma mi re : Int) (s : String) :
    renderVersion ma mi re (some s) = renderVersion ma mi re none ++ s := by
  show String.mk (renderChars ma mi re (some s))
    = String.mk (renderChars ma mi re none) ++ String.mk s.toList
  simp only [strMkAppend, renderChars]
  simp

/-- `extract_version` in terms of the scanned table and warnings. -/
theorem extractVersionEq (path content : String) :
    extract_version path content =
      extractFromTable path (scanTbl path content) (scanWarns path content) := rfl

/-- The version string of `get_version_string` is the rendering of the
`extract_version` outcome. -/
theorem getVersionSnd (path content : String) :
    (get_version_string path content).2 =
      renderResult (extract_version path content).2 := rfl

/-! ## Concrete header contents used by the claims -/

/-- A well-formed header defining MAJOR=1, MINOR=2, REVISION=3, no SUFFIX. -/
def hdr123 : String :=
  "#define POLYTRACKER_VERSION_MAJOR 1\n#define POLYTRACKER_VERSION_MINOR 2\n#define POLYTRACKER_VERSION_REVISION 3"

/-- A header whose MAJOR value is the negative integer literal `-1`. -/
def hdrNegMajor : String :=
  "#define POLYTRACKER_VERSION_MAJOR -1\n#define POLYTRACKER_VERSION_MINOR 2\n#define POLYTRACKER_VERSION_REVISION 3"

/-- `hdr123` plus a SUFFIX defined as the empty quoted string. -/
def hdrEmptySuffix : String :=
  "#define POLYTRACKER_VERSION_MAJOR 1\n#define POLYTRACKER_VERSION_MINOR 2\n#define POLYTRACKER_VERSION_REVISION 3\n#define POLYTRACKER_VERSION_SUFFIX \"\""

/-- A header whose MAJOR value is the non-integer `abc` and which lacks
MINOR and REVISION entirely. -/
def hdrAbcMajor : String :=
  "#define POLYTRACKER_VERSION_MAJOR abc"

/-- A header whose MAJOR value is the Arabic-Indic digit `٣` (which Python
`int` parses as 3) and which lacks REVISION. -/
def hdrUniMajor : String :=
  "#define POLYTRACKER_VERSION_MAJOR ٣\n#define POLYTRACKER_VERSION_MINOR 2"

/-- A well-formed header whose MAJOR value is written with the
Arabic-Indic digit `٣`: accepted by `int`, rendered canonically as `3`. -/
def hdrUni123 : String :=
  "#define POLYTRACKER_VERSION_MAJOR ٣\n#define POLYTRACKER_VERSION_MINOR 2\n#define POLYTRACKER_VERSION_REVISION 3"

/-! ## Claims -/

/-- C1 (counterexample): the claim says the components are non-negative and
the rendered string matches `\d+\.\d+\.\d+(.*)?` for every header content
accepted by `extract_version`.  But `extract_version` accepts a header whose
MAJOR raw value is `-1` (Python `int` parses negative literals): extraction
succeeds with major `-1 < 0` and the rendered string `"-1.2.3"` does not
match the pattern. -/
theorem C1_counterexample :
    (extract_version "polytracker.h" hdrNegMajor).2 = ExtractResult.ok (-1) 2 3 none ∧
    (get_version_string "polytracker.h" hdrNegMajor).2 = some "-1.2.3" ∧
    matchesVersionPat "-1.2.3" = false ∧ ((-1 : Int) < 0) := by
  refine ⟨by decide, by decide, by decide, by decide⟩

/-- C1 (amended): whenever extraction succeeds the major, minor and
revision components are integers (possibly negative, since Python `int`
accepts signed literals); whenever they are moreover non-negative, the
rendered version string matches the pattern `\d+\.\d+\.\d+(.*)?`. -/
theorem C1_nonneg_pattern (path content : String) (ma mi re : Int)
    (suf : Option String)
    (h : (extract_version path content).2 = ExtractResult.ok ma mi re suf)
    (hma : 0 ≤ ma) (hmi : 0 ≤ mi) (hre : 0 ≤ re) :
    (get_version_string path content).2 = some (renderVersion ma mi re suf) ∧
    matchesVersionPat (renderVersion ma mi re suf) = true := by
  constructor
  · rw [getVersionSnd, h]; rfl
  · have e1 : ∃ tail, renderChars ma mi re suf
        = natRepr ma.toNat ++ '.' :: (natRepr mi.toNat ++ '.' :: (natRepr re.toNat ++ tail)) := by
      cases suf with
      | none =>
        exact ⟨[], by simp [renderChars, pyStrCharsNonneg ma hma,
          pyStrCharsNonneg mi hmi, pyStrCharsNonneg re hre]⟩
      | some s =>
        exact ⟨s.toList, by simp [renderChars, pyStrCharsNonneg ma hma,
          pyStrCharsNonneg mi hmi, pyStrCharsNonneg re hre]⟩
    obtain ⟨tail, e1⟩ := e1
    show matchesVersionPat (String.mk (renderChars ma mi re suf)) = true
    rw [e1]
    exact patCheckBuild _ _ _ _ (natReprNeNil _) (natReprDigits _)
      (natReprNeNil _) (natReprDigits _) (natReprNeNil _) (natReprDigits _)

theorem C1_nonneg_pattern_witness :
    (extract_version "polytracker.h" hdr123).2 = ExtractResult.ok 1 2 3 none ∧
    (0 : Int) ≤ 1 ∧ (0 : Int) ≤ 2 ∧ (0 : Int) ≤ 3 ∧
    ((get_version_string "polytracker.h" hdr123).2 = some (renderVersion 1 2 3 none) ∧
      matchesVersionPat (renderVersion 1 2 3 none) = true) ∧
    (extract_version "polytracker.h" hdrUni123).2 = ExtractResult.ok 3 2 3 none ∧
    ((get_version_string "polytracker.h" hdrUni123).2 = some (renderVersion 3 2 3 none) ∧
      matchesVersionPat (renderVersion 3 2 3 none) = true) ∧
    (get_version_string "polytracker.h" hdrUni123).2 = some "3.2.3" :=
  ⟨by decide, by decide, by decide, by decide,
    C1_nonneg_pattern "polytracker.h" hdr123 1 2 3 none (by decide)
      (by decide) (by decide) (by decide),
    by decide,
    C1_nonneg_pattern "polytracker.h" hdrUni123 3 2 3 none (by decide)
      (by decide) (by decide) (by decide),
    by decide⟩

/-- C2: the rendered string is exactly `"{major}.{minor}.{revision}"` when
the suffix is none, and the suffix is appended directly with no separator
when present; and the concrete well-formed header with MAJOR=1, MINOR=2,
REVISION=3 and no SUFFIX yields exactly `"1.2.3"` end to end. -/
theorem C2_render (ma mi re : Int) (s : String) :
    renderVersion ma mi re none = pyStr ma ++ "." ++ pyStr mi ++ "." ++ pyStr re ∧
    renderVersion ma mi re (some s) = renderVersion ma mi re none ++ s ∧
    (get_version_string "polytracker.h" hdr123).2 = some "1.2.3" :=
  ⟨renderNoneEq ma mi re, renderSomeEq ma mi re s, by decide⟩

theorem suffixCore (s : List Char) :
    (if startsQuote s && endsQuote s then (s.drop 1).dropLast else s)
      = (if s.head? = some '"' && s.getLast? = some '"' then s.tail.dropLast else s) := by
  have h1 : startsQuote s = decide (s.head? = some '"') := by
    cases s with
    | nil => rfl
    | cons c t => by_cases hcq : c = '"' <;> simp [startsQuote, hcq]
  have h2 : endsQuote s = decide (s.getLast? = some '"') := by
    cases hls : s.getLast? with
    | none => simp [endsQuote, hls]
    | some c => by_cases hcq : c = '"' <;> simp [endsQuote, hls, hcq]
  rw [List.drop_one, h1, h2]

/-- C3: the code's SUFFIX normalization agrees everywhere with the spec's
description (strip whitespace; remove one leading and one trailing quote
when the value begins and ends with one; empty result means no suffix);
consequently a header defining SUFFIX as `""` renders identically to the
same header with no SUFFIX at all. -/
theorem C3_suffix :
    (∀ v : String, processSuffix v = suffixSpecModel v) ∧
    (get_version_string "polytracker.h" hdrEmptySuffix).2
      = (get_version_string "polytracker.h" hdr123).2 ∧
    (get_version_string "polytracker.h" hdrEmptySuffix).2 = some "1.2.3" := by
  refine ⟨?_, by decide, by decide⟩
  intro v
  simp only [processSuffix, suffixSpecModel]
  rw [suffixCore (pyStrip v.toList)]

/-- C4 (counterexample): the claim says that whenever a required macro is
absent the diagnostic names the missing macro.  But for a header whose
MAJOR value is the non-integer `abc` (with MINOR and REVISION absent), the
process exits after writing the not-an-integer diagnostic for MAJOR, and no
diagnostic naming any missing macro is written. -/
theorem C4_counterexample :
    scanTbl "polytracker.h" hdrAbcMajor "REVISION" = none ∧
    extract_version "polytracker.h" hdrAbcMajor
      = ([notIntMsg "polytracker.h" "MAJOR"], ExtractResult.exit 1) ∧
    ((extract_version "polytracker.h" hdrAbcMajor).1).contains
      (missingMsg "polytracker.h" "MAJOR") = false ∧
    ((extract_version "polytracker.h" hdrAbcMajor).1).contains
      (missingMsg "polytracker.h" "MINOR") = false ∧
    ((extract_version "polytracker.h" hdrAbcMajor).1).contains
      (missingMsg "polytracker.h" "REVISION") = false := by
  refine ⟨by decide, by decide, by decide, by decide, by decide⟩

/-- C4 (amended): whenever at least one of MAJOR, MINOR, REVISION is absent
from the scanned table, extraction terminates with status 1 and no version
string is produced; and when moreover every required macro that is present
has an integer-parseable value, the single diagnostic written after the
scan warnings names (with the resource path) the first missing macro in the
fixed checking order MAJOR, MINOR, REVISION. -/
theorem C4_missing_required (path content : String)
    (h : scanTbl path content "MAJOR" = none ∨ scanTbl path content "MINOR" = none ∨
      scanTbl path content "REVISION" = none) :
    (extract_version path content).2 = ExtractResult.exit 1 ∧
    (get_version_string path content).2 = none ∧
    ((∀ v : String,
        (scanTbl path content "MAJOR" = some v → (pyInt v).isSome = true) ∧
        (scanTbl path content "MINOR" = some v → (pyInt v).isSome = true) ∧
        (scanTbl path content "REVISION" = some v → (pyInt v).isSome = true)) →
      (extract_version path content).1 = scanWarns path content ++
        [missingMsg path
          (if scanTbl path content "MAJOR" = none then "MAJOR"
           else if scanTbl path content "MINOR" = none then "MINOR"
           else "REVISION")]) := by
  cases hM : scanTbl path content "MAJOR" with
  | none =>
    have hx : extractFromTable path (scanTbl path content) (scanWarns path content)
        = (scanWarns path content ++ [missingMsg path "MAJOR"], ExtractResult.exit 1) := by
      simp [extractFromTable, validatePart, hM]
    refine ⟨by rw [extractVersionEq, hx], by rw [getVersionSnd, extractVersionEq, hx]; rfl, ?_⟩
    intro _
    rw [extractVersionEq, hx]
    simp [hM]
  | some vM =>
    cases hPM : pyInt vM with
    | none =>
      have hx : extractFromTable path (scanTbl path content) (scanWarns path content)
          = (scanWarns path content ++ [notIntMsg path "MAJOR"], ExtractResult.exit 1) := by
        simp [extractFromTable, validatePart, hM, hPM]
      refine ⟨by rw [extractVersionEq, hx], by rw [getVersionSnd, extractVersionEq, hx]; rfl, ?_⟩
      intro hall
      have h9 := (hall vM).1 rfl
      rw [hPM] at h9
      exact absurd h9 (by simp)
    | some nM =>
      cases hMi : scanTbl path content "MINOR" with
      | none =>
        have hx : extractFromTable path (scanTbl path content) (scanWarns path content)
            = (scanWarns path content ++ [missingMsg path "MINOR"], ExtractResult.exit 1) := by
          simp [extractFromTable, validatePart, hM, hPM, hMi]
        refine ⟨by rw [extractVersionEq, hx], by rw [getVersionSnd, extractVersionEq, hx]; rfl, ?_⟩
        intro _
        rw [extractVersionEq, hx]
        simp [hM, hMi]
      | some vMi =>
        cases hPMi : pyInt vMi with
        | none =>
          have hx : extractFromTable path (scanTbl path content) (scanWarns path content)
              = (scanWarns path content ++ [notIntMsg path "MINOR"], ExtractResult.exit 1) := by
            simp [extractFromTable, validatePart, hM, hPM, hMi, hPMi]
          refine ⟨by rw [extractVersionEq, hx], by rw [getVersionSnd, extractVersionEq, hx]; rfl, ?_⟩
          intro hall
          have h9 := (hall vMi).2.1 rfl
          rw [hPMi] at h9
          exact absurd h9 (by simp)
        | some nMi =>
          cases hR : scanTbl path content "REVISION" with
          | none =>
            have hx : extractFromTable path (scanTbl path content) (scanWarns path content)
                = (scanWarns path content ++ [missingMsg path "REVISION"], ExtractResult.exit 1) := by
              simp [extractFromTable, validatePart, hM, hPM, hMi, hPMi, hR]
            refine ⟨by rw [extractVersionEq, hx], by rw [getVersionSnd, extractVersionEq, hx]; rfl, ?_⟩
            intro _
            rw [extractVersionEq, hx]
            simp [hM, hMi]
          | some vR =>
            rcases h with h | h | h
            · rw [hM] at h; exact absurd h (by simp)
            · rw [hMi] at h; exact absurd h (by simp)
            · rw [hR] at h; exact absurd h (by simp)

theorem C4_missing_required_witness :
    ((scanTbl "polytracker.h" hdrAbcMajor "MAJOR" = none ∨
      scanTbl "polytracker.h" hdrAbcMajor "MINOR" = none ∨
      scanTbl "polytracker.h" hdrAbcMajor "REVISION" = none) ∧
      (extract_version "polytracker.h" hdrAbcMajor).2 = ExtractResult.exit 1 ∧
      (get_version_string "polytracker.h" hdrAbcMajor).2 = none) ∧
    (scanTbl "polytracker.h" hdrUniMajor "REVISION" = none ∧
      (extract_version "polytracker.h" hdrUniMajor).2 = ExtractResult.exit 1 ∧
      (get_version_string "polytracker.h" hdrUniMajor).2 = none ∧
      extract_version "polytracker.h" hdrUniMajor
        = ([missingMsg "polytracker.h" "REVISION"], ExtractResult.exit 1)) :=
  ⟨⟨by decide,
    (C4_missing_required "polytracker.h" hdrAbcMajor (by decide)).1,
    (C4_missing_required "polytracker.h" hdrAbcMajor (by decide)).2.1⟩,
   ⟨by decide,
    (C4_missing_required "polytracker.h" hdrUniMajor
      (Or.inr (Or.inr (by decide)))).1,
    (C4_missing_required "polytracker.h" hdrUniMajor
      (Or.inr (Or.inr (by decide)))).2.1,
    by decide⟩⟩

/-- C5: whenever a required macro is present in the scanned table but its
raw value is not parseable as a base-10 integer, extraction terminates with
status 1, no version string is produced, and the stderr output ends with a
fatal diagnostic (a missing-macro or not-an-integer message for one of the
required macros). -/
theorem C5_not_integer (path content part v : String)
    (hp : part = "MAJOR" ∨ part = "MINOR" ∨ part = "REVISION")
    (hv : scanTbl path content part = some v)
    (hi : pyInt v = none) :
    (extract_version path content).2 = ExtractResult.exit 1 ∧
    (get_version_string path content).2 = none ∧
    ∃ p m, (p = "MAJOR" ∨ p = "MINOR" ∨ p = "REVISION") ∧
      (m = missingMsg path p ∨ m = notIntMsg path p) ∧
      (extract_version path content).1 = scanWarns path content ++ [m] := by
  have main : ∃ p m, (p = "MAJOR" ∨ p = "MINOR" ∨ p = "REVISION") ∧
      (m = missingMsg path p ∨ m = notIntMsg path p) ∧
      extractFromTable path (scanTbl path content) (scanWarns path content)
        = (scanWarns path content ++ [m], ExtractResult.exit 1) := by
    cases hM : scanTbl path content "MAJOR" with
    | none =>
      exact ⟨"MAJOR", missingMsg path "MAJOR", Or.inl rfl, Or.inl rfl,
        by simp [extractFromTable, validatePart, hM]⟩
    | some vM =>
      cases hPM : pyInt vM with
      | none =>
        exact ⟨"MAJOR", notIntMsg path "MAJOR", Or.inl rfl, Or.inr rfl,
          by simp [extractFromTable, validatePart, hM, hPM]⟩
      | some nM =>
        cases hMi : scanTbl path content "MINOR" with
        | none =>
          exact ⟨"MINOR", missingMsg path "MINOR", Or.inr (Or.inl rfl), Or.inl rfl,
            by simp [extractFromTable, validatePart, hM, hPM, hMi]⟩
        | some vMi =>
          cases hPMi : pyInt vMi with
          | none =>
            exact ⟨"MINOR", notIntMsg path "MINOR", Or.inr (Or.inl rfl), Or.inr rfl,
              by simp [extractFromTable, validatePart, hM, hPM, hMi, hPMi]⟩
          | some nMi =>
            cases hR : scanTbl path content "REVISION" with
            | none =>
              exact ⟨"REVISION", missingMsg path "REVISION", Or.inr (Or.inr rfl), Or.inl rfl,
                by simp [extractFromTable, validatePart, hM, hPM, hMi, hPMi, hR]⟩
            | some vR =>
              cases hPR : pyInt vR with
              | none =>
                exact ⟨"REVISION", notIntMsg path "REVISION", Or.inr (Or.inr rfl), Or.inr rfl,
                  by simp [extractFromTable, validatePart, hM, hPM, hMi, hPMi, hR, hPR]⟩
              | some nR =>
                exfalso
                rcases hp with rfl | rfl | rfl
                · rw [hM] at hv
                  obtain rfl : vM = v := by injection hv
                  rw [hPM] at hi
                  exact absurd hi (by simp)
                · rw [hMi] at hv
                  obtain rfl : vMi = v := by injection hv
                  rw [hPMi] at hi
                  exact absurd hi (by simp)
                · rw [hR] at hv
                  obtain rfl : vR = v := by injection hv
                  rw [hPR] at hi
                  exact absurd hi (by simp)
  obtain ⟨p, m, hp2, hm2, hx⟩ := main
  exact ⟨by rw [extractVersionEq, hx], by rw [getVersionSnd, extractVersionEq, hx]; rfl,
    p, m, hp2, hm2, by rw [extractVersionEq, hx]⟩

theorem C5_not_integer_witness :
    (("MAJOR" : String) = "MAJOR" ∨ ("MAJOR" : String) = "MINOR" ∨
      ("MAJOR" : String) = "REVISION") ∧
    scanTbl "polytracker.h" hdrAbcMajor "MAJOR" = some "abc" ∧
    pyInt "abc" = none ∧
    ((extract_version "polytracker.h" hdrAbcMajor).2 = ExtractResult.exit 1 ∧
      (get_version_string "polytracker.h" hdrAbcMajor).2 = none ∧
      ∃ p m, (p = "MAJOR" ∨ p = "MINOR" ∨ p = "REVISION") ∧
        (m = missingMsg "polytracker.h" p ∨ m = notIntMsg "polytracker.h" p) ∧
        (extract_version "polytracker.h" hdrAbcMajor).1
          = scanWarns "polytracker.h" hdrAbcMajor ++ [m]) :=
  ⟨Or.inl rfl, by decide, by decide,
    C5_not_integer "polytracker.h" hdrAbcMajor "MAJOR" "abc" (Or.inl rfl)
      (by decide) (by decide)⟩

/-- The first line of `hdr123`, as characters. -/
def hdr123part1 : List Char := "#define POLYTRACKER_VERSION_MAJOR 1".toList

/-- The second line of `hdr123`, as characters. -/
def hdr123part2 : List Char := "#define POLYTRACKER_VERSION_MINOR 2".toList

/-- The third line of `hdr123`, as characters. -/
def hdr123part3 : List Char := "#define POLYTRACKER_VERSION_REVISION 3".toList

/-- A header in which MAJOR is defined twice (values 1 then 2). -/
def hdrDupMajor : String :=
  "#define POLYTRACKER_VERSION_MAJOR 1\n#define POLYTRACKER_VERSION_MAJOR 2\n#define POLYTRACKER_VERSION_MINOR 3\n#define POLYTRACKER_VERSION_REVISION 4"

/-- C6: when a recognized macro name matches the scan pattern on more than
one line, the table records the raw value of the last matching occurrence,
and the scan's stderr output is exactly the unrecognized-name warnings
(`warnGo`), so duplication produces no diagnostic. -/
theorem C6_last_wins (path content n : String)
    (hrec : recognizedName n = true)
    (hdup : 2 ≤ (matchValuesOf n (splitLines content.toList)).length) :
    scanTbl path content n = (matchValuesOf n (splitLines content.toList)).getLast? ∧
    scanWarns path content = warnGo path 0 (splitLines content.toList) := by
  constructor
  · have h1 := scanGoLookup path n hrec (splitLines content.toList) 0 tbl0 []
    show (scanGo path 0 tbl0 [] (splitLines content.toList)).1 n = _
    rw [h1, lastOfOptEq]
    have hne : matchValuesOf n (splitLines content.toList) ≠ [] := by
      intro hnil
      rw [hnil] at hdup
      simp at hdup
    obtain ⟨a, t, he⟩ := List.exists_cons_of_ne_nil hne
    rw [he, List.getLast?_cons]
  · have h2 := scanGoSnd path (splitLines content.toList) 0 tbl0 []
    show (scanGo path 0 tbl0 [] (splitLines content.toList)).2 = _
    rw [h2]
    simp

theorem C6_last_wins_witness :
    recognizedName "MAJOR" = true ∧
    2 ≤ (matchValuesOf "MAJOR" (splitLines hdrDupMajor.toList)).length ∧
    (scanTbl "polytracker.h" hdrDupMajor "MAJOR"
        = (matchValuesOf "MAJOR" (splitLines hdrDupMajor.toList)).getLast? ∧
      scanWarns "polytracker.h" hdrDupMajor
        = warnGo "polytracker.h" 0 (splitLines hdrDupMajor.toList)) ∧
    scanTbl "polytracker.h" hdrDupMajor "MAJOR" = some "2" :=
  ⟨by decide, by decide,
    C6_last_wins "polytracker.h" hdrDupMajor "MAJOR" (by decide) (by decide),
    by decide⟩

/-- C7: a matching line with an unrecognized name produces a warning whose
line number is its 1-based position and changes nothing else: the scanned
table, the extraction outcome and the rendered version string are the same
as for the content with that line deleted. -/
theorem C7_unrecognized (path : String) (pre post : List (List Char))
    (l : List Char) (n v : String)
    (hm : matchLine l = some (n, v)) (hn : recognizedName n = false) :
    warnMsg path (pre.length + 1) n ∈ (scanLines path (pre ++ l :: post)).2 ∧
    (scanLines path (pre ++ l :: post)).1 = (scanLines path (pre ++ post)).1 ∧
    (extractFromLines path (pre ++ l :: post)).2 = (extractFromLines path (pre ++ post)).2 ∧
    renderResult (extractFromLines path (pre ++ l :: post)).2
      = renderResult (extractFromLines path (pre ++ post)).2 := by
  have hnr : ¬recognizedName n = true := by rw [hn]; exact Bool.false_ne_true
  have hstep : ∀ i tbl errs, scanGo path i tbl errs (l :: post)
      = scanGo path (i + 1) tbl (errs ++ [warnMsg path (i + 1) n]) post := by
    intro i tbl errs
    simp only [scanGo, hm]
    rw [if_neg hnr]
  have hA := scanGoAppend path pre (l :: post) 0 tbl0 []
  have hB := scanGoAppend path pre post 0 tbl0 []
  have htbl : (scanLines path (pre ++ l :: post)).1 = (scanLines path (pre ++ post)).1 := by
    show (scanGo path 0 tbl0 [] (pre ++ l :: post)).1
      = (scanGo path 0 tbl0 [] (pre ++ post)).1
    rw [hA, hB, hstep]
    exact scanGoFstCongr path post _ _ _ _ _
  have hmem : warnMsg path (pre.length + 1) n ∈ (scanLines path (pre ++ l :: post)).2 := by
    show _ ∈ (scanGo path 0 tbl0 [] (pre ++ l :: post)).2
    rw [hA, hstep, scanGoSnd]
    simp
  have hfl : ∀ lines, extractFromLines path lines
      = extractFromTable path (scanLines path lines).1 (scanLines path lines).2 :=
    fun _ => rfl
  have hext : (extractFromLines path (pre ++ l :: post)).2
      = (extractFromLines path (pre ++ post)).2 := by
    rw [hfl, hfl, htbl]
    exact extractFromTableSndCongr path _ _ _
  exact ⟨hmem, htbl, hext, by rw [hext]⟩

theorem C7_unrecognized_witness :
    matchLine ("#define POLYTRACKER_VERSION_FOO bar".toList) = some ("FOO", "bar") ∧
    recognizedName "FOO" = false ∧
    (warnMsg "polytracker.h" 1 "FOO" ∈
        (scanLines "polytracker.h"
          ([] ++ "#define POLYTRACKER_VERSION_FOO bar".toList ::
            [hdr123part1, hdr123part2, hdr123part3])).2 ∧
      (scanLines "polytracker.h"
          ([] ++ "#define POLYTRACKER_VERSION_FOO bar".toList ::
            [hdr123part1, hdr123part2, hdr123part3])).1
        = (scanLines "polytracker.h" ([] ++ [hdr123part1, hdr123part2, hdr123part3])).1 ∧
      (extractFromLines "polytracker.h"
          ([] ++ "#define POLYTRACKER_VERSION_FOO bar".toList ::
            [hdr123part1, hdr123part2, hdr123part3])).2
        = (extractFromLines "polytracker.h" ([] ++ [hdr123part1, hdr123part2, hdr123part3])).2 ∧
      renderResult (extractFromLines "polytracker.h"
          ([] ++ "#define POLYTRACKER_VERSION_FOO bar".toList ::
            [hdr123part1, hdr123part2, hdr123part3])).2
        = renderResult (extractFromLines "polytracker.h"
            ([] ++ [hdr123part1, hdr123part2, hdr123part3])).2) ∧
    renderResult (extractFromLines "polytracker.h"
        ([] ++ "#define POLYTRACKER_VERSION_FOO bar".toList ::
          [hdr123part1, hdr123part2, hdr123part3])).2 = some "1.2.3" :=
  ⟨by decide, by decide,
    C7_unrecognized "polytracker.h" [] [hdr123part1, hdr123part2, hdr123part3]
      ("#define POLYTRACKER_VERSION_FOO bar".toList) "FOO" "bar" (by decide) (by decide),
    by decide⟩

/-- C8: for every macro line built from the scan pattern's shape, the
captured name and raw value are independent of the leading whitespace
(`w1`), the inter-token whitespace runs (`w2`, `w3`) and the trailing
whitespace (`w4`): the extracted raw value is exactly the non-whitespace
run `v`.  In particular extra spaces before `#define` and after the value
do not affect the recorded value. -/
theorem C8_whitespace (w1 w2 w3 w4 n v : List Char)
    (hw1 : ∀ c ∈ w1, pySpace c = true)
    (hw2n : w2 ≠ []) (hw2 : ∀ c ∈ w2, pySpace c = true)
    (hw3n : w3 ≠ []) (hw3 : ∀ c ∈ w3, pySpace c = true)
    (hw4 : ∀ c ∈ w4, pySpace c = true)
    (hnn : n ≠ []) (hn : ∀ c ∈ n, wordChar c = true)
    (hvn : v ≠ []) (hv : ∀ c ∈ v, pySpace c = false) :
    matchLine (w1 ++ (defineChars ++ (w2 ++ (versionChars ++ (n ++ (w3 ++ (v ++ w4)))))))
      = some (String.mk n, String.mk v) :=
  matchLineBuild w1 w2 w3 w4 n v hw1 hw2n hw2 hw3n hw3 hw4 hnn hn hvn hv

theorem C8_whitespace_witness :
    (∀ c ∈ ([] : List Char), pySpace c = true) ∧
    ([' '] : List Char) ≠ [] ∧ (∀ c ∈ ([' '] : List Char), pySpace c = true) ∧
    ([' ', ' ', ' '] : List Char) ≠ [] ∧
    (∀ c ∈ ([' ', ' ', ' '] : List Char), pySpace c = true) ∧
    (['M', 'A', 'J', 'O', 'R'] : List Char) ≠ [] ∧
    (∀ c ∈ (['M', 'A', 'J', 'O', 'R'] : List Char), wordChar c = true) ∧
    (['1'] : List Char) ≠ [] ∧ (∀ c ∈ (['1'] : List Char), pySpace c = false) ∧
    matchLine (([] : List Char) ++ (defineChars ++ ([' '] ++ (versionChars ++
        (['M', 'A', 'J', 'O', 'R'] ++ ([' ', ' ', ' '] ++ (['1'] ++ [' ', ' ', ' '])))))))
      = some ("MAJOR", "1") ∧
    matchLine "#define POLYTRACKER_VERSION_MAJOR   1   ".toList = some ("MAJOR", "1") ∧
    matchLine "#define POLYTRACKER_VERSION_MAJOR 1".toList = some ("MAJOR", "1") :=
  ⟨by decide, by decide, by decide, by decide, by decide, by decide, by decide,
    by decide, by decide,
    C8_whitespace [] [' '] [' ', ' ', ' '] [' ', ' ', ' '] ['M', 'A', 'J', 'O', 'R'] ['1']
      (by decide) (by decide) (by decide) (by decide) (by decide) (by decide)
      (by decide) (by decide) (by decide) (by decide),
    by decide, by decide⟩

/-- C9: when the file system has no entry at the fixed path
`<package_root>/include/polytracker/polytracker.h`, locating the header
writes exactly one diagnostic (which names the expected path) and exits
(status 1 in the full pipeline); no version string is produced; and the
outcome only depends on that single path (no fallback or retry: any file
system also lacking that path produces the identical outcome). -/
theorem C9_header_missing (fs : String → Option String) (pkg : String)
    (h : fs (headerPath pkg) = none) :
    get_polytracker_header fs pkg = ([headerNotFoundMsg (headerPath pkg)], none) ∧
    headerNotFoundMsg (headerPath pkg)
      = "Error loading polytracker.h!\nIt was expected to be here:\n" ++
          headerPath pkg ++ "\n\n" ∧
    (extractVersionFS fs pkg).2 = ExtractResult.exit 1 ∧
    renderResult (extractVersionFS fs pkg).2 = none ∧
    (∀ fs2 : String → Option String, fs2 (headerPath pkg) = none →
      get_polytracker_header fs2 pkg = get_polytracker_header fs pkg ∧
      (extractVersionFS fs2 pkg).2 = (extractVersionFS fs pkg).2) := by
  have h1 : get_polytracker_header fs pkg
      = ([headerNotFoundMsg (headerPath pkg)], none) := by
    simp [get_polytracker_header, h]
  have h2 : extractVersionFS fs pkg
      = ([headerNotFoundMsg (headerPath pkg)], ExtractResult.exit 1) := by
    simp [extractVersionFS, h1]
  refine ⟨h1, rfl, by rw [h2], by rw [h2]; rfl, ?_⟩
  intro fs2 h9
  have h1b : get_polytracker_header fs2 pkg
      = ([headerNotFoundMsg (headerPath pkg)], none) := by
    simp [get_polytracker_header, h9]
  have h2b : extractVersionFS fs2 pkg
      = ([headerNotFoundMsg (headerPath pkg)], ExtractResult.exit 1) := by
    simp [extractVersionFS, h1b]
  exact ⟨by rw [h1, h1b], by rw [h2, h2b]⟩

theorem C9_header_missing_witness :
    ((fun _ : String => (none : Option String)) (headerPath "pkg") = none) ∧
    get_polytracker_header (fun _ : String => (none : Option String)) "pkg"
      = ([headerNotFoundMsg (headerPath "pkg")], none) ∧
    (extractVersionFS (fun _ : String => (none : Option String)) "pkg").2
      = ExtractResult.exit 1 :=
  ⟨rfl, (C9_header_missing (fun _ => none) "pkg" rfl).1,
    (C9_header_missing (fun _ => none) "pkg" rfl).2.2.1⟩

/-- The name capture `MAJOR`, as characters. -/
def majorName : List Char := ['M', 'A', 'J', 'O', 'R']

/-- The name capture `MINOR`, as characters. -/
def minorName : List Char := ['M', 'I', 'N', 'O', 'R']

/-- The name capture `REVISION`, as characters. -/
def revisionName : List Char := ['R', 'E', 'V', 'I', 'S', 'I', 'O', 'N']

/-- A canonical macro line `#define POLYTRACKER_VERSION_<nm> <v>`. -/
def macroLine (nm v : List Char) : List Char :=
  defineChars ++ ([' '] ++ (versionChars ++ (nm ++ ([' '] ++ v))))

/-- C10: for required-macro raw values that the integer parser accepts
(including non-canonical spellings such as `007` or `+1`, and Unicode
decimal digit spellings such as `٠٠٧`), extraction succeeds with no stderr
output at all, and the rendered version string is built from the canonical
decimal form (`pyStr`) of the parsed integers, not from the original raw
text. -/
theorem C10_noncanonical (path : String) (va vb vc : List Char) (na ni nr : Int)
    (hva : va ≠ []) (hsa : ∀ c ∈ va, pySpace c = false)
    (hvb : vb ≠ []) (hsb : ∀ c ∈ vb, pySpace c = false)
    (hvc : vc ≠ []) (hsc : ∀ c ∈ vc, pySpace c = false)
    (hpa : pyInt (String.mk va) = some na)
    (hpb : pyInt (String.mk vb) = some ni)
    (hpc : pyInt (String.mk vc) = some nr) :
    extractFromLines path
        [macroLine majorName va, macroLine minorName vb, macroLine revisionName vc]
      = ([], ExtractResult.ok na ni nr none) ∧
    renderResult (extractFromLines path
        [macroLine majorName va, macroLine minorName vb, macroLine revisionName vc]).2
      = some (pyStr na ++ "." ++ pyStr ni ++ "." ++ pyStr nr) := by
  have hm1 : matchLine (macroLine majorName va) = some ("MAJOR", String.mk va) := by
    have h0 := matchLineBuild [] [' '] [' '] [] majorName va (by decide) (by decide)
      (by decide) (by decide) (by decide) (by decide) (by decide) (by decide) hva hsa
    have he : macroLine majorName va
        = [] ++ (defineChars ++ ([' '] ++ (versionChars ++ (majorName ++ ([' '] ++ (va ++ [])))))) := by
      simp [macroLine]
    rw [he, h0]
    rfl
  have hm2 : matchLine (macroLine minorName vb) = some ("MINOR", String.mk vb) := by
    have h0 := matchLineBuild [] [' '] [' '] [] minorName vb (by decide) (by decide)
      (by decide) (by decide) (by decide) (by decide) (by decide) (by decide) hvb hsb
    have he : macroLine minorName vb
        = [] ++ (defineChars ++ ([' '] ++ (versionChars ++ (minorName ++ ([' '] ++ (vb ++ [])))))) := by
      simp [macroLine]
    rw [he, h0]
    rfl
  have hm3 : matchLine (macroLine revisionName vc) = some ("REVISION", String.mk vc) := by
    have h0 := matchLineBuild [] [' '] [' '] [] revisionName vc (by decide) (by decide)
      (by decide) (by decide) (by decide) (by decide) (by decide) (by decide) hvc hsc
    have he : macroLine revisionName vc
        = [] ++ (defineChars ++ ([' '] ++ (versionChars ++ (revisionName ++ ([' '] ++ (vc ++ [])))))) := by
      simp [macroLine]
    rw [he, h0]
    rfl
  have hr1 : recognizedName "MAJOR" = true := by decide
  have hr2 : recognizedName "MINOR" = true := by decide
  have hr3 : recognizedName "REVISION" = true := by decide
  have hscan : scanLines path
      [macroLine majorName va, macroLine minorName vb, macroLine revisionName vc]
      = (fun k => if k = "REVISION" then some (String.mk vc)
          else if k = "MINOR" then some (String.mk vb)
          else if k = "MAJOR" then some (String.mk va)
          else tbl0 k, []) := by
    show scanGo path 0 tbl0 []
        [macroLine majorName va, macroLine minorName vb, macroLine revisionName vc] = _
    simp only [scanGo, hm1, hm2, hm3, hr1, hr2, hr3, eq_self_iff_true, if_true]
  have hfl : extractFromLines path
      [macroLine majorName va, macroLine minorName vb, macroLine revisionName vc]
      = extractFromTable path
          (scanLines path
            [macroLine majorName va, macroLine minorName vb, macroLine revisionName vc]).1
          (scanLines path
            [macroLine majorName va, macroLine minorName vb, macroLine revisionName vc]).2 :=
    rfl
  rw [hfl, hscan]
  have t1 : (fun k => if k = "REVISION" then some (String.mk vc)
      else if k = "MINOR" then some (String.mk vb)
      else if k = "MAJOR" then some (String.mk va)
      else tbl0 k) "MAJOR" = some (String.mk va) := by
    show (if ("MAJOR" : String) = "REVISION" then some (String.mk vc)
      else if ("MAJOR" : String) = "MINOR" then some (String.mk vb)
      else if ("MAJOR" : String) = "MAJOR" then some (String.mk va)
      else tbl0 "MAJOR") = some (String.mk va)
    rw [if_neg (by decide), if_neg (by decide), if_pos rfl]
  have t2 : (fun k => if k = "REVISION" then some (String.mk vc)
      else if k = "MINOR" then some (String.mk vb)
      else if k = "MAJOR" then some (String.mk va)
      else tbl0 k) "MINOR" = some (String.mk vb) := by
    show (if ("MINOR" : String) = "REVISION" then some (String.mk vc)
      else if ("MINOR" : String) = "MINOR" then some (String.mk vb)
      else if ("MINOR" : String) = "MAJOR" then some (String.mk va)
      else tbl0 "MINOR") = some (String.mk vb)
    rw [if_neg (by decide), if_pos rfl]
  have t3 : (fun k => if k = "REVISION" then some (String.mk vc)
      else if k = "MINOR" then some (String.mk vb)
      else if k = "MAJOR" then some (String.mk va)
      else tbl0 k) "REVISION" = some (String.mk vc) := by
    show (if ("REVISION" : String) = "REVISION" then some (String.mk vc)
      else if ("REVISION" : String) = "MINOR" then some (String.mk vb)
      else if ("REVISION" : String) = "MAJOR" then some (String.mk va)
      else tbl0 "REVISION") = some (String.mk vc)
    rw [if_pos rfl]
  have t4 : (fun k => if k = "REVISION" then some (String.mk vc)
      else if k = "MINOR" then some (String.mk vb)
      else if k = "MAJOR" then some (String.mk va)
      else tbl0 k) "SUFFIX" = none := by
    show (if ("SUFFIX" : String) = "REVISION" then some (String.mk vc)
      else if ("SUFFIX" : String) = "MINOR" then some (String.mk vb)
      else if ("SUFFIX" : String) = "MAJOR" then some (String.mk va)
      else tbl0 "SUFFIX") = none
    rw [if_neg (by decide), if_neg (by decide), if_neg (by decide)]
    rfl
  have hx : extractFromTable path
      (fun k => if k = "REVISION" then some (String.mk vc)
        else if k = "MINOR" then some (String.mk vb)
        else if k = "MAJOR" then some (String.mk va)
        else tbl0 k) []
      = ([], ExtractResult.ok na ni nr none) := by
    simp [extractFromTable, validatePart, t1, t2, t3, t4, hpa, hpb, hpc, tbl0]
  rw [hx]
  exact ⟨rfl, by rw [show renderResult (ExtractResult.ok na ni nr none)
    = some (renderVersion na ni nr none) from rfl, renderNoneEq]⟩

theorem C10_noncanonical_witness :
    (['0', '0', '7'] : List Char) ≠ [] ∧
    pyInt (String.mk ['0', '0', '7']) = some 7 ∧
    pyInt (String.mk ['+', '1']) = some 1 ∧
    pyInt (String.mk ['3']) = some 3 ∧
    pyInt (String.mk ['٠', '٠', '٧']) = some 7 ∧
    pyInt (String.mk ['+', '١']) = some 1 ∧
    pyInt (String.mk ['٣']) = some 3 ∧
    (extractFromLines "polytracker.h"
        [macroLine majorName ['0', '0', '7'], macroLine minorName ['+', '1'],
          macroLine revisionName ['3']]
      = ([], ExtractResult.ok 7 1 3 none) ∧
      renderResult (extractFromLines "polytracker.h"
          [macroLine majorName ['0', '0', '7'], macroLine minorName ['+', '1'],
            macroLine revisionName ['3']]).2
        = some (pyStr 7 ++ "." ++ pyStr 1 ++ "." ++ pyStr 3)) ∧
    (extractFromLines "polytracker.h"
        [macroLine majorName ['٠', '٠', '٧'], macroLine minorName ['+', '١'],
          macroLine revisionName ['٣']]
      = ([], ExtractResult.ok 7 1 3 none) ∧
      renderResult (extractFromLines "polytracker.h"
          [macroLine majorName ['٠', '٠', '٧'], macroLine minorName ['+', '١'],
            macroLine revisionName ['٣']]).2
        = some (pyStr 7 ++ "." ++ pyStr 1 ++ "." ++ pyStr 3)) ∧
    pyStr 7 ++ "." ++ pyStr 1 ++ "." ++ pyStr 3 = "7.1.3" :=
  ⟨by decide, by decide, by decide, by decide, by decide, by decide, by decide,
    C10_noncanonical "polytracker.h" ['0', '0', '7'] ['+', '1'] ['3'] 7 1 3
      (by decide) (by decide) (by decide) (by decide) (by decide) (by decide)
      (by decide) (by decide) (by decide),
    C10_noncanonical "polytracker.h" ['٠', '٠', '٧'] ['+', '١'] ['٣'] 7 1 3
      (by decide) (by decide) (by decide) (by decide) (by decide) (by decide)
      (by decide) (by decide) (by decide),
    by decide⟩

end PolyVersion
